import Mathlib

set_option linter.unusedVariables false

/-! Verification development for the forgeai-rs chat-client core: the canonical
domain model (crates/forgeai-core), the pure translation layers of the three
provider adapters, the failover router (crates/forgeai-router) and the tool
loop with its stream collector (crates/forgeai), shallowly embedded from the
Rust source.  HTTP transport and serde's string-level JSON parser are external
collaborators and are abstracted: adapters are modelled as functions from
requests to results, and payloads enter the model already parsed as `Json`
values (a failed parse is represented explicitly where the code branches on
it). -/

/-- JSON values as manipulated through serde_json's Value in the source.
Numbers are modelled as rationals; the integer fragment that token counters
use is captured by `as_u64` requiring an integral non-negative value below
2^64, mirroring serde's Value::as_u64. -/
inductive Json where
  | null : Json
  | bool (b : Bool) : Json
  | num (q : Rat) : Json
  | str (s : String) : Json
  | arr (items : List Json) : Json
  | obj (fields : List (String × Json)) : Json
  deriving Repr

/-- Value::get(key) on an object (serde map lookup; parsed objects have unique
keys, so first-match lookup models the map). -/
def Json.get : Json → String → Option Json
  | .obj fields, key => fields.lookup key
  | _, _ => none

/-- Value::as_str. -/
def Json.as_str : Json → Option String
  | .str s => some s
  | _ => none

/-- Value::as_array. -/
def Json.as_array : Json → Option (List Json)
  | .arr items => some items
  | _ => none

/-- Value::as_u64: succeeds exactly on non-negative integral numbers below
2^64. -/
def Json.as_u64 : Json → Option Nat
  | .num q => if q.den = 1 ∧ 0 ≤ q.num ∧ q.num < 2 ^ 64 then some q.num.toNat else none
  | _ => none

/-- Rust's `as u32` truncating cast on a u64 value. -/
def u32cast (n : Nat) : Nat := n % 2 ^ 32

/-- u32::saturating_add on values already below 2^32. -/
def satAdd32 (a b : Nat) : Nat := min (a + b) (2 ^ 32 - 1)

/-- One character of serde_json's string escaping (quote, backslash, the
short control escapes, then numeric escapes for other control characters). -/
def escapeJsonChar (c : Char) : String :=
  if c = '"' then "\\\""
  else if c = '\\' then "\\\\"
  else if c = Char.ofNat 8 then "\\b"
  else if c = Char.ofNat 12 then "\\f"
  else if c = '\n' then "\\n"
  else if c = '\r' then "\\r"
  else if c = '\t' then "\\t"
  else if c.toNat < 32 then
    "\\u00" ++ String.mk [Nat.digitChar (c.toNat / 16), Nat.digitChar (c.toNat % 16)]
  else String.singleton c

/-- serde_json string serialization: escaped content between quotes. -/
def escapeJsonString (s : String) : String :=
  "\"" ++ String.join (s.toList.map escapeJsonChar) ++ "\""

mutual

/-- serde_json's compact `to_string` serialization of a Value.  Object fields
are emitted in list order; values built by the `json!` macro use a BTreeMap,
so call sites list fields in sorted key order.  Non-integral numbers (serde's
shortest-float formatting) are outside the integer fragment the claims
exercise and are rendered by the placeholder `toString`. -/
def Json.render : Json → String
  | .null => "null"
  | .bool true => "true"
  | .bool false => "false"
  | .num q => if q.den = 1 then toString q.num else toString q
  | .str s => escapeJsonString s
  | .arr items => "[" ++ Json.renderArray items ++ "]"
  | .obj fields => "\x7b" ++ Json.renderFields fields ++ "\x7d"

/-- Comma-separated rendering of array elements. -/
def Json.renderArray : List Json → String
  | [] => ""
  | [j] => j.render
  | j :: rest => j.render ++ "," ++ Json.renderArray rest

/-- Comma-separated rendering of object fields. -/
def Json.renderFields : List (String × Json) → String
  | [] => ""
  | [(k, v)] => escapeJsonString k ++ ":" ++ v.render
  | (k, v) :: rest => escapeJsonString k ++ ":" ++ v.render ++ "," ++ Json.renderFields rest

end

/-- Role in forgeai-core (System, User, Assistant, Tool). -/
inductive Role where
  | System
  | User
  | Assistant
  | Tool
  deriving DecidableEq, Repr

/-- Message in forgeai-core. -/
structure Message where
  role : Role
  content : String
  deriving DecidableEq, Repr

/-- ToolDefinition in forgeai-core. -/
structure ToolDefinition where
  name : String
  description : Option String
  input_schema : Json
  deriving Repr

/-- ChatRequest in forgeai-core.  The f32 temperature is modelled as a
rational. -/
structure ChatRequest where
  model : String
  messages : List Message
  temperature : Option Rat
  max_tokens : Option Nat
  tools : List ToolDefinition
  metadata : Json
  deriving Repr

/-- Usage in forgeai-core: three u32 counters, modelled as Nat with explicit
truncation/saturation where the code casts. -/
structure Usage where
  input_tokens : Nat
  output_tokens : Nat
  total_tokens : Nat
  deriving DecidableEq, Repr

/-- ToolCall in forgeai-core. -/
structure ToolCall where
  id : String
  name : String
  arguments : Json
  deriving Repr

/-- ChatResponse in forgeai-core. -/
structure ChatResponse where
  id : String
  model : String
  output_text : String
  tool_calls : List ToolCall
  usage : Option Usage
  deriving Repr

/-- StreamEvent in forgeai-core. -/
inductive StreamEvent where
  | TextDelta (delta : String)
  | ToolCallDelta (call_id : String) (delta : Json)
  | Usage (usage : Usage)
  | Done
  deriving Repr

/-- ForgeError in forgeai-core. -/
inductive ForgeError where
  | Validation (message : String)
  | Authentication
  | RateLimited
  | Provider (message : String)
  | Transport (message : String)
  | Internal (message : String)
  deriving DecidableEq, Repr

/-- Whitespace as recognized by Rust's str::trim: char::is_whitespace, i.e.
the Unicode White_Space property.  Its members are U+0009..U+000D (tab, line
feed, vertical tab, form feed, carriage return), space, next line, no-break
space, the Ogham space mark, U+2000..U+200A, the line and paragraph
separators, the narrow no-break space, the medium mathematical space, and the
ideographic space. -/
def isWhitespaceChar (c : Char) : Bool :=
  decide ((0x09 ≤ c.toNat ∧ c.toNat ≤ 0x0D) ∨ c.toNat = 0x20 ∨
    c.toNat = 0x85 ∨ c.toNat = 0xA0 ∨ c.toNat = 0x1680 ∨
    (0x2000 ≤ c.toNat ∧ c.toNat ≤ 0x200A) ∨ c.toNat = 0x2028 ∨
    c.toNat = 0x2029 ∨ c.toNat = 0x202F ∨ c.toNat = 0x205F ∨
    c.toNat = 0x3000)

/-- Rust's str::trim: strip leading and trailing whitespace. -/
def strTrim (s : String) : String :=
  String.mk (((s.toList.dropWhile isWhitespaceChar).reverse.dropWhile
    isWhitespaceChar).reverse)

/-- validate_request in forgeai-core (lines 121-131). -/
def validate_request (request : ChatRequest) : Except ForgeError Unit :=
  if (strTrim request.model).isEmpty then
    .error (.Validation "model cannot be empty")
  else if request.messages.isEmpty then
    .error (.Validation "messages cannot be empty")
  else
    .ok ()

namespace OpenAi

/-- role_to_openai in forgeai-adapter-openai (lines 231-238). -/
def role_to_openai : Role → String
  | .System => "system"
  | .User => "user"
  | .Assistant => "assistant"
  | .Tool => "tool"

/-- build_chat_body in forgeai-adapter-openai (lines 179-229).  Fields are
listed in insertion order; conditional fields contribute nothing when their
source Option is None or the source list is empty. -/
def build_chat_body (request : ChatRequest) (stream : Bool) : Json :=
  Json.obj
    ([("model", Json.str request.model),
      ("messages", Json.arr (request.messages.map (fun m =>
        Json.obj [("role", Json.str (role_to_openai m.role)),
                  ("content", Json.str m.content)])))]
     ++ (match request.temperature with
         | some t => [("temperature", Json.num t)]
         | none => [])
     ++ (match request.max_tokens with
         | some mt => [("max_tokens", Json.num mt)]
         | none => [])
     ++ (if request.tools.isEmpty then []
         else [("tools", Json.arr (request.tools.map (fun tool =>
           Json.obj [("type", Json.str "function"),
                     ("function", Json.obj
                       [("name", Json.str tool.name),
                        ("description", match tool.description with
                          | some d => Json.str d
                          | none => Json.null),
                        ("parameters", tool.input_schema)])])))])
     ++ (if stream then
          [("stream", Json.bool true),
           ("stream_options", Json.obj [("include_usage", Json.bool true)])]
         else []))

/-- extract_provider_error in forgeai-adapter-openai (lines 249-259).  The
serde string-level JSON parse of the body is abstracted as the oracle
`parse`. -/
def extract_provider_error (parse : String → Option Json) (body : String) : String :=
  match ((parse body).bind (fun v => v.get "error")).bind (fun e =>
      (e.get "message").bind Json.as_str) with
  | some message => message
  | none => body

/-- parse_http_error in forgeai-adapter-openai (lines 240-247), over a numeric
HTTP status. -/
def parse_http_error (parse : String → Option Json) (status : Nat) (body : String) :
    ForgeError :=
  let message := extract_provider_error parse body
  if status = 401 ∨ status = 403 then .Authentication
  else if status = 429 then .RateLimited
  else .Provider message

/-- extract_text_content in forgeai-adapter-openai (lines 294-304). -/
def extract_text_content : Option Json → String
  | some (.str text) => text
  | some (.arr parts) =>
      String.join (parts.filterMap (fun part => (part.get "text").bind Json.as_str))
  | _ => ""

/-- extract_tool_calls in forgeai-adapter-openai (lines 306-339).  Wire
arguments arrive as a JSON-encoded string; the serde string-level parse the
code attempts on them is abstracted as the oracle `parse` (None models a
failed parse, making the code fall back to the raw form). -/
def extract_tool_calls (parse : String → Option Json) (raw : Option Json) :
    List ToolCall :=
  match raw.bind Json.as_array with
  | some items =>
      items.map (fun item =>
        let id := ((item.get "id").bind Json.as_str).getD ""
        let function := (item.get "function").getD Json.null
        let name := ((function.get "name").bind Json.as_str).getD ""
        let arguments :=
          match ((function.get "arguments").bind Json.as_str).bind parse with
          | some parsed_args => parsed_args
          | none => (function.get "arguments").getD Json.null
        { id := id, name := name, arguments := arguments })
  | none => []

/-- extract_usage in forgeai-adapter-openai (lines 341-351): all three
counters must be present as u64 numbers or usage is omitted. -/
def extract_usage (raw : Option Json) : Option Usage :=
  match raw with
  | none => none
  | some usage =>
      match (usage.get "prompt_tokens").bind Json.as_u64 with
      | none => none
      | some input_tokens =>
          match (usage.get "completion_tokens").bind Json.as_u64 with
          | none => none
          | some output_tokens =>
              match (usage.get "total_tokens").bind Json.as_u64 with
              | none => none
              | some total_tokens =>
                  some { input_tokens := u32cast input_tokens,
                         output_tokens := u32cast output_tokens,
                         total_tokens := u32cast total_tokens }

/-- parse_stream_payload in forgeai-adapter-openai (lines 353-396), applied to
an already-parsed payload value. -/
def parse_stream_payload (value : Json) : List StreamEvent :=
  (match extract_usage (value.get "usage") with
   | some usage => [StreamEvent.Usage usage]
   | none => [])
  ++ (match (value.get "choices").bind Json.as_array with
      | some choices =>
          choices.flatMap (fun choice =>
            (match ((choice.get "delta").bind (fun d => d.get "content")).bind
                Json.as_str with
             | some content =>
                 if content.isEmpty then [] else [StreamEvent.TextDelta content]
             | none => [])
            ++ (match ((choice.get "delta").bind (fun d => d.get "tool_calls")).bind
                  Json.as_array with
                | some tool_calls =>
                    tool_calls.map (fun tool_call =>
                      StreamEvent.ToolCallDelta
                        (((tool_call.get "id").bind Json.as_str).getD "")
                        tool_call)
                | none => []))
      | none => [])

/-- One data-record payload of the SSE stream, after line reassembly and the
serde parse the chat_stream loop performs: the literal terminator, a payload
that parsed as JSON, or a payload whose parse failed (carrying serde's error
text). -/
inductive SsePayload where
  | doneLit
  | parsed (v : Json)
  | invalid (emsg : String)
  deriving Repr

/-- The record-processing loop of chat_stream in forgeai-adapter-openai
(lines 121-173): events yielded for each record in order, tracking saw_done;
at end of input a Done is synthesized unless one was already yielded.  A
failed payload parse ends the stream with a Provider error.  Note the loop
continues past a [DONE] record rather than stopping. -/
def chat_stream_events : List SsePayload → Bool → List StreamEvent × Option ForgeError
  | [], sawDone => (if sawDone then [] else [StreamEvent.Done], none)
  | .doneLit :: rest, _ =>
      let (events, err) := chat_stream_events rest true
      (StreamEvent.Done :: events, err)
  | .parsed v :: rest, sawDone =>
      let (events, err) := chat_stream_events rest sawDone
      (parse_stream_payload v ++ events, err)
  | .invalid emsg :: _, _ =>
      ([], some (.Provider ("invalid stream payload: " ++ emsg)))

end OpenAi

namespace Anthropic

/-- build_messages_body in forgeai-adapter-anthropic (lines 190-251): model,
max_tokens (default 1024), optional temperature, non-system messages with
content wrapped as one text block, system messages joined into a single
top-level system string, tools, and the stream flag. -/
def build_messages_body (request : ChatRequest) (stream : Bool) : Json :=
  let system_chunks :=
    (request.messages.filter (fun m => m.role = Role.System)).map Message.content
  let messages :=
    (request.messages.filter (fun m => ¬ m.role = Role.System)).map (fun m =>
      Json.obj
        [("role", Json.str (match m.role with
           | Role.Assistant => "assistant"
           | _ => "user")),
         ("content", Json.arr [Json.obj
           [("type", Json.str "text"), ("text", Json.str m.content)]])])
  Json.obj
    ([("model", Json.str request.model),
      ("max_tokens", Json.num (request.max_tokens.getD 1024))]
     ++ (match request.temperature with
         | some t => [("temperature", Json.num t)]
         | none => [])
     ++ [("messages", Json.arr messages)]
     ++ (if system_chunks.isEmpty then []
         else [("system", Json.str (String.intercalate "\n\n" system_chunks))])
     ++ (if request.tools.isEmpty then []
         else [("tools", Json.arr (request.tools.map (fun tool =>
           Json.obj [("name", Json.str tool.name),
                     ("description", match tool.description with
                       | some d => Json.str d
                       | none => Json.null),
                     ("input_schema", tool.input_schema)])))])
     ++ (if stream then [("stream", Json.bool true)] else []))

/-- extract_provider_error in forgeai-adapter-anthropic (lines 262-272), with
the serde string-level parse abstracted as `parse`. -/
def extract_provider_error (parse : String → Option Json) (body : String) : String :=
  match ((parse body).bind (fun v => v.get "error")).bind (fun e =>
      (e.get "message").bind Json.as_str) with
  | some message => message
  | none => body

/-- parse_http_error in forgeai-adapter-anthropic (lines 253-260). -/
def parse_http_error (parse : String → Option Json) (status : Nat) (body : String) :
    ForgeError :=
  let message := extract_provider_error parse body
  if status = 401 ∨ status = 403 then .Authentication
  else if status = 429 then .RateLimited
  else .Provider message

/-- extract_text_blocks in forgeai-adapter-anthropic (lines 304-311). -/
def extract_text_blocks (content : List Json) : String :=
  String.join
    ((content.filter (fun block =>
        ((block.get "type").bind Json.as_str) = some "text")).filterMap
      (fun block => (block.get "text").bind Json.as_str))

/-- extract_tool_calls_from_blocks in forgeai-adapter-anthropic
(lines 313-331). -/
def extract_tool_calls_from_blocks (content : List Json) : List ToolCall :=
  (content.filter (fun block =>
      ((block.get "type").bind Json.as_str) = some "tool_use")).map
    (fun block =>
      { id := ((block.get "id").bind Json.as_str).getD ""
        name := ((block.get "name").bind Json.as_str).getD ""
        arguments := (block.get "input").getD Json.null })

/-- extract_usage in forgeai-adapter-anthropic (lines 333-348): a missing
counter reads as 0, the total is always the saturating sum, and the result is
Some whenever the usage value itself was present. -/
def extract_usage (raw : Option Json) : Option Usage :=
  match raw with
  | none => none
  | some usage =>
      let input_tokens := u32cast (((usage.get "input_tokens").bind Json.as_u64).getD 0)
      let output_tokens := u32cast (((usage.get "output_tokens").bind Json.as_u64).getD 0)
      some { input_tokens := input_tokens,
             output_tokens := output_tokens,
             total_tokens := satAdd32 input_tokens output_tokens }

/-- parse_chat_response in forgeai-adapter-anthropic (lines 274-302). -/
def parse_chat_response (payload : Json) : ChatResponse :=
  let content := ((payload.get "content").bind Json.as_array).getD []
  { id := ((payload.get "id").bind Json.as_str).getD ""
    model := ((payload.get "model").bind Json.as_str).getD ""
    output_text := extract_text_blocks content
    tool_calls := extract_tool_calls_from_blocks content
    usage := extract_usage (payload.get "usage") }

/-- parse_stream_payload in forgeai-adapter-anthropic (lines 350-415), applied
to an already-parsed record payload together with the record's event name. -/
def parse_stream_payload (value : Json) (event : Option String) : List StreamEvent :=
  let event_type :=
    (event.orElse (fun _ => (value.get "type").bind Json.as_str)).getD ""
  (match (extract_usage (value.get "usage")).orElse (fun _ =>
      extract_usage ((value.get "message").bind (fun m => m.get "usage"))) with
   | some usage => [StreamEvent.Usage usage]
   | none => [])
  ++ (if event_type = "content_block_delta" then
        match ((value.get "delta").bind (fun d => d.get "text")).bind Json.as_str with
        | some delta_text =>
            if delta_text.isEmpty then [] else [StreamEvent.TextDelta delta_text]
        | none => []
      else [])
  ++ (if event_type = "content_block_start" then
        match value.get "content_block" with
        | some block =>
            if ((block.get "type").bind Json.as_str) = some "tool_use" then
              [StreamEvent.ToolCallDelta (((block.get "id").bind Json.as_str).getD "") block]
            else []
        | none => []
      else [])
  ++ (if event_type = "message_stop" then [StreamEvent.Done] else [])

end Anthropic

namespace Gemini

/-- build_generate_body in forgeai-adapter-gemini (lines 207-278).  When a
temperature is present, generationConfig carries maxOutputTokens as a
serialized Option (null when absent); with no temperature but a max_tokens it
carries only maxOutputTokens; with neither, generationConfig is omitted. -/
def build_generate_body (request : ChatRequest) : Json :=
  let contents :=
    (request.messages.filter (fun m => ¬ m.role = Role.System)).map (fun m =>
      Json.obj
        [("role", Json.str (if m.role = Role.Assistant then "model" else "user")),
         ("parts", Json.arr [Json.obj [("text", Json.str m.content)]])])
  let system_chunks :=
    (request.messages.filter (fun m => m.role = Role.System)).map Message.content
  Json.obj
    ((match request.temperature, request.max_tokens with
      | some t, mt =>
          [("generationConfig", Json.obj
            [("temperature", Json.num t),
             ("maxOutputTokens", match mt with
               | some n => Json.num n
               | none => Json.null)])]
      | none, some mt =>
          [("generationConfig", Json.obj [("maxOutputTokens", Json.num mt)])]
      | none, none => [])
     ++ [("contents", Json.arr contents)]
     ++ (if system_chunks.isEmpty then []
         else [("systemInstruction", Json.obj
           [("parts", Json.arr [Json.obj
             [("text", Json.str (String.intercalate "\n\n" system_chunks))]])])])
     ++ (if request.tools.isEmpty then []
         else [("tools", Json.arr (request.tools.map (fun tool =>
           Json.obj [("functionDeclarations", Json.arr [Json.obj
             [("name", Json.str tool.name),
              ("description", match tool.description with
                | some d => Json.str d
                | none => Json.null),
              ("parameters", tool.input_schema)]])])))]))

/-- extract_provider_error in forgeai-adapter-gemini (lines 289-299), with the
serde string-level parse abstracted as `parse`. -/
def extract_provider_error (parse : String → Option Json) (body : String) : String :=
  match ((parse body).bind (fun v => v.get "error")).bind (fun e =>
      (e.get "message").bind Json.as_str) with
  | some message => message
  | none => body

/-- parse_http_error in forgeai-adapter-gemini (lines 280-287). -/
def parse_http_error (parse : String → Option Json) (status : Nat) (body : String) :
    ForgeError :=
  let message := extract_provider_error parse body
  if status = 401 ∨ status = 403 then .Authentication
  else if status = 429 then .RateLimited
  else .Provider message

/-- extract_text_from_payload in forgeai-adapter-gemini (lines 319-343). -/
def extract_text_from_payload (payload : Json) : String :=
  match (payload.get "candidates").bind Json.as_array with
  | some candidates =>
      String.join
        ((candidates.flatMap (fun candidate =>
            (((candidate.get "content").bind (fun c => c.get "parts")).bind
              Json.as_array).getD [])).filterMap
          (fun part => (part.get "text").bind Json.as_str))
  | none => ""

/-- extract_tool_calls_from_payload in forgeai-adapter-gemini
(lines 345-379). -/
def extract_tool_calls_from_payload (payload : Json) : List ToolCall :=
  match (payload.get "candidates").bind Json.as_array with
  | some candidates =>
      (candidates.flatMap (fun candidate =>
          (((candidate.get "content").bind (fun c => c.get "parts")).bind
            Json.as_array).getD [])).filterMap
        (fun part =>
          match part.get "functionCall" with
          | some function_call =>
              some { id := ((function_call.get "id").bind Json.as_str).getD ""
                     name := ((function_call.get "name").bind Json.as_str).getD ""
                     arguments := (function_call.get "args").getD Json.null }
          | none => none)
  | none => []

/-- extract_usage in forgeai-adapter-gemini (lines 381-401): missing prompt or
candidates counters read as 0; a missing total is computed as the saturating
sum. -/
def extract_usage (raw : Option Json) : Option Usage :=
  match raw with
  | none => none
  | some usage =>
      let input_tokens := u32cast (((usage.get "promptTokenCount").bind Json.as_u64).getD 0)
      let output_tokens :=
        u32cast (((usage.get "candidatesTokenCount").bind Json.as_u64).getD 0)
      let total_tokens :=
        match (usage.get "totalTokenCount").bind Json.as_u64 with
        | some v => u32cast v
        | none => satAdd32 input_tokens output_tokens
      some { input_tokens := input_tokens,
             output_tokens := output_tokens,
             total_tokens := total_tokens }

/-- parse_chat_response in forgeai-adapter-gemini (lines 301-317). -/
def parse_chat_response (model : String) (payload : Json) : ChatResponse :=
  { id := ((payload.get "responseId").bind Json.as_str).getD ""
    model := model
    output_text := extract_text_from_payload payload
    tool_calls := extract_tool_calls_from_payload payload
    usage := extract_usage (payload.get "usageMetadata") }

/-- parse_stream_payload in forgeai-adapter-gemini (lines 403-438), applied to
an already-parsed payload value: text delta when any text was extracted, one
tool-call delta per functionCall, usage when usageMetadata is present, and
Done when the first candidate carries a finishReason field. -/
def parse_stream_payload (value : Json) : List StreamEvent :=
  (let text := extract_text_from_payload value
   if text.isEmpty then [] else [StreamEvent.TextDelta text])
  ++ (extract_tool_calls_from_payload value).map (fun tool_call =>
      StreamEvent.ToolCallDelta tool_call.id
        (Json.obj [("name", Json.str tool_call.name),
                   ("arguments", tool_call.arguments)]))
  ++ (match extract_usage (value.get "usageMetadata") with
      | some usage => [StreamEvent.Usage usage]
      | none => [])
  ++ (if ((((value.get "candidates").bind Json.as_array).bind List.head?).bind
        (fun c => c.get "finishReason")).isSome
      then [StreamEvent.Done] else [])

/-- One SSE data-record payload, as for the OpenAI adapter. -/
inductive SsePayload where
  | doneLit
  | parsed (v : Json)
  | invalid (emsg : String)
  deriving Repr

/-- The record-processing loop of chat_stream in forgeai-adapter-gemini
(lines 144-201): as for OpenAI, but a Done arising from a payload's
finishReason also marks saw_done; the loop continues past any Done. -/
def chat_stream_events : List SsePayload → Bool → List StreamEvent × Option ForgeError
  | [], sawDone => (if sawDone then [] else [StreamEvent.Done], none)
  | .doneLit :: rest, _ =>
      let (events, err) := chat_stream_events rest true
      (StreamEvent.Done :: events, err)
  | .parsed v :: rest, sawDone =>
      let payload_events := parse_stream_payload v
      let sawDone' := sawDone || payload_events.any (fun e =>
        match e with | StreamEvent.Done => true | _ => false)
      let (events, err) := chat_stream_events rest sawDone'
      (payload_events ++ events, err)
  | .invalid emsg :: _, _ =>
      ([], some (.Provider ("invalid stream payload: " ++ emsg)))

end Gemini

namespace Router

/-- should_failover in forgeai-router (lines 98-103). -/
def should_failover : ForgeError → Bool
  | .RateLimited => true
  | .Transport _ => true
  | .Provider _ => true
  | _ => false

/-- The message of the pathological-exhaustion Internal error. -/
def exhaustedMessage : String := "failover router exhausted adapters without error"

/-- The iteration of FailoverRouter::chat / chat_stream in forgeai-router
(lines 62-95) over the results the candidate adapters would produce, paired
with the number of adapters actually invoked (the Rust loop stops calling
adapters at the first success or terminal error). -/
def chatRun {α : Type} :
    Option ForgeError → List (Except ForgeError α) → Except ForgeError α × Nat
  | lastError, [] =>
      (.error (lastError.getD (.Internal exhaustedMessage)), 0)
  | _, .ok response :: _ => (.ok response, 1)
  | lastError, .error e :: rest =>
      if should_failover e then
        let (result, tried) := chatRun (some e) rest
        (result, tried + 1)
      else (.error e, 1)

/-- FailoverPolicy in forgeai-router (lines 11-22); the default
max_adapters_to_try is usize::MAX, i.e. effectively unbounded. -/
structure FailoverPolicy where
  max_adapters_to_try : Nat

/-- FailoverRouter::chat (and identically chat_stream) in forgeai-router:
iterate the children taken up to the policy cap, over the result each would
produce for this request. -/
def FailoverRouter.chat {α : Type}
    (adapters : List (ChatRequest → Except ForgeError α))
    (policy : FailoverPolicy) (request : ChatRequest) : Except ForgeError α :=
  (chatRun none ((adapters.take policy.max_adapters_to_try).map
    (fun a => a request))).1

/-- The number of child adapters FailoverRouter::chat invokes. -/
def FailoverRouter.chatTried {α : Type}
    (adapters : List (ChatRequest → Except ForgeError α))
    (policy : FailoverPolicy) (request : ChatRequest) : Nat :=
  (chatRun none ((adapters.take policy.max_adapters_to_try).map
    (fun a => a request))).2

end Router

/-- ToolError in forgeai-tools. -/
inductive ToolError where
  | NotFound (name : String)
  | Execution (message : String)
  deriving DecidableEq, Repr

/-- The thiserror Display form of a ToolError, as interpolated into the tool
loop's Provider message. -/
def ToolError.toDisplay : ToolError → String
  | .NotFound name => "tool not found: " ++ name
  | .Execution message => "tool execution failed: " ++ message

/-- ToolExecutor in forgeai-tools: one synchronous call operation. -/
def ToolExecutor := String → Json → Except ToolError Json

/-- The adapter capability the client façade owns: chat and chat_stream (the
descriptive info operation has no runtime effect and is omitted).  A stream is
modelled by the list of events it yields. -/
structure ChatAdapter where
  chat : ChatRequest → Except ForgeError ChatResponse
  chat_stream : ChatRequest → Except ForgeError (List StreamEvent)

/-- Client::chat in forgeai (lines 21-24): validate, then delegate. -/
def Client.chat (adapter : ChatAdapter) (request : ChatRequest) :
    Except ForgeError ChatResponse :=
  match validate_request request with
  | .error e => .error e
  | .ok _ => adapter.chat request

/-- Client::chat_stream in forgeai (lines 26-32): validate, then delegate. -/
def Client.chat_stream (adapter : ChatAdapter) (request : ChatRequest) :
    Except ForgeError (List StreamEvent) :=
  match validate_request request with
  | .error e => .error e
  | .ok _ => adapter.chat_stream request

/-- Whether a stream event is the Done sentinel. -/
def StreamEvent.isDone : StreamEvent → Bool
  | .Done => true
  | _ => false

/-- HashMap::insert keyed by call_id: replace the entry in place when the key
exists, append otherwise.  (The source HashMap has unspecified iteration
order; this list is one deterministic refinement of it, and the theorems about
the collector only state order-insensitive facts about the projected tool
calls.) -/
def insertDelta : List (String × Json) → String → Json → List (String × Json)
  | [], call_id, delta => [(call_id, delta)]
  | (k, v) :: rest, call_id, delta =>
      if k = call_id then (call_id, delta) :: rest
      else (k, v) :: insertDelta rest call_id delta

/-- The accumulator of Client::chat_stream_collect in forgeai
(lines 148-164). -/
structure CollectState where
  text : String
  usage : Option Usage
  tool_call_deltas : List (String × Json)

/-- The event-consumption loop of chat_stream_collect: fold events in arrival
order, stopping at the first Done. -/
def collectEvents : List StreamEvent → CollectState → CollectState
  | [], st => st
  | .TextDelta delta :: rest, st =>
      collectEvents rest { st with text := st.text ++ delta }
  | .Usage u :: rest, st =>
      collectEvents rest { st with usage := some u }
  | .ToolCallDelta call_id delta :: rest, st =>
      collectEvents rest
        { st with tool_call_deltas := insertDelta st.tool_call_deltas call_id delta }
  | .Done :: _, st => st

/-- The tool-call name projection of chat_stream_collect (lines 169-180):
delta.name, then delta.function.name, defaulting to "unknown_tool". -/
def deltaToolName (delta : Json) : String :=
  (((delta.get "name").bind Json.as_str).orElse (fun _ =>
    ((delta.get "function").bind (fun f => f.get "name")).bind Json.as_str)).getD
    "unknown_tool"

/-- The tool-call arguments projection of chat_stream_collect
(lines 181-190): delta.arguments, then delta.function.arguments, defaulting to
null. -/
def deltaToolArguments (delta : Json) : Json :=
  ((delta.get "arguments").orElse (fun _ =>
    (delta.get "function").bind (fun f => f.get "arguments"))).getD Json.null

/-- Projection of the accumulated deltas into tool calls (lines 166-197). -/
def projectToolCalls (deltas : List (String × Json)) : List ToolCall :=
  deltas.map (fun p =>
    { id := p.1, name := deltaToolName p.2, arguments := deltaToolArguments p.2 })

/-- Client::chat_stream_collect in forgeai (lines 147-207). -/
def Client.chat_stream_collect (adapter : ChatAdapter) (request : ChatRequest) :
    Except ForgeError ChatResponse :=
  match Client.chat_stream adapter request with
  | .error e => .error e
  | .ok events =>
      let st := collectEvents events { text := "", usage := none, tool_call_deltas := [] }
      .ok { id := "stream-collected"
            model := request.model
            output_text := st.text
            tool_calls := projectToolCalls st.tool_call_deltas
            usage := st.usage }

/-- ToolLoopOptions in forgeai (lines 53-62); the default max_iterations
is 8. -/
structure ToolLoopOptions where
  max_iterations : Nat

/-- ToolInvocation in forgeai (lines 64-70). -/
structure ToolInvocation where
  call_id : String
  name : String
  input : Json
  output : Json

/-- ToolLoopResult in forgeai (lines 72-77). -/
structure ToolLoopResult where
  final_response : ChatResponse
  tool_invocations : List ToolInvocation
  iterations : Nat

/-- The tool-reply payload the loop serializes into a Tool-role message
(lines 129-137); the json! macro's BTreeMap puts the keys in sorted order
name, output, tool_call_id. -/
def toolReplyJson (tool_call_id name : String) (output : Json) : Json :=
  Json.obj [("name", Json.str name), ("output", output),
            ("tool_call_id", Json.str tool_call_id)]

/-- The per-tool-call inner loop of run_tool_loop in forgeai (lines 115-138):
invoke the executor for each call in order; a failure aborts with a Provider
error naming the tool and the executor's Display message; a success records an
invocation and appends a Tool-role message carrying the serialized reply. -/
def toolTurn (tools : ToolExecutor) :
    ChatRequest → List ToolInvocation → List ToolCall →
    Except ForgeError (ChatRequest × List ToolInvocation)
  | request, invocations, [] => .ok (request, invocations)
  | request, invocations, call :: rest =>
      match tools call.name call.arguments with
      | .error e =>
          .error (.Provider ("tool '" ++ call.name ++ "' execution failed: "
            ++ e.toDisplay))
      | .ok output =>
          toolTurn tools
            { request with messages := request.messages ++
                [{ role := Role.Tool,
                   content := (toolReplyJson call.id call.name output).render }] }
            (invocations ++ [{ call_id := call.id, name := call.name,
                               input := call.arguments, output := output }])
            rest

/-- The Provider message produced when the iteration cap is reached
(lines 141-144). -/
def exceededMessage (n : Nat) : String :=
  "tool loop exceeded max iterations (" ++ toString n ++ ")"

/-- The iteration loop of run_tool_loop in forgeai (lines 95-139), with the
remaining iteration budget as fuel: send the current request; a tool-call-free
response ends the loop with iterations = turns taken so far; otherwise append
the assistant message, run the tool calls, and continue. -/
def loopGo (send : ChatRequest → Except ForgeError ChatResponse)
    (tools : ToolExecutor) (max_iterations : Nat) :
    Nat → ChatRequest → List ToolInvocation → Except ForgeError ToolLoopResult
  | 0, _, _ => .error (.Provider (exceededMessage max_iterations))
  | fuel + 1, request, invocations =>
      match send request with
      | .error e => .error e
      | .ok response =>
          if response.tool_calls.isEmpty then
            .ok { final_response := response
                  tool_invocations := invocations
                  iterations := max_iterations - fuel }
          else
            match toolTurn tools
                { request with messages := request.messages ++
                    [{ role := Role.Assistant, content := response.output_text }] }
                invocations response.tool_calls with
            | .error e => .error e
            | .ok (request', invocations') =>
                loopGo send tools max_iterations fuel request' invocations'

/-- run_tool_loop in forgeai (lines 79-145).  The transport (direct chat, or
stream-collect when streaming was selected) is the `send` argument. -/
def run_tool_loop (send : ChatRequest → Except ForgeError ChatResponse)
    (tools : ToolExecutor) (request : ChatRequest) (options : ToolLoopOptions) :
    Except ForgeError ToolLoopResult :=
  match validate_request request with
  | .error e => .error e
  | .ok _ =>
      if options.max_iterations = 0 then
        .error (.Validation "max_iterations must be greater than 0")
      else
        loopGo send tools options.max_iterations options.max_iterations request []

/-- Client::chat_with_tools in forgeai (lines 34-41). -/
def Client.chat_with_tools (adapter : ChatAdapter) (tools : ToolExecutor)
    (request : ChatRequest) (options : ToolLoopOptions) :
    Except ForgeError ToolLoopResult :=
  run_tool_loop adapter.chat tools request options

/-- Client::chat_with_tools_streaming in forgeai (lines 43-50). -/
def Client.chat_with_tools_streaming (adapter : ChatAdapter) (tools : ToolExecutor)
    (request : ChatRequest) (options : ToolLoopOptions) :
    Except ForgeError ToolLoopResult :=
  run_tool_loop (Client.chat_stream_collect adapter) tools request options

/-- Helper: a successful toolTurn never changes any request field other than
messages; in particular the metadata value is preserved. -/
theorem toolTurn_metadata (tools : ToolExecutor) :
    ∀ (calls : List ToolCall) (request : ChatRequest)
      (invocations : List ToolInvocation) (request' : ChatRequest)
      (invocations' : List ToolInvocation),
      toolTurn tools request invocations calls = .ok (request', invocations') →
      request'.metadata = request.metadata := by
  intro calls
  induction calls with
  | nil =>
      intro request invocations request' invocations' h
      simp [toolTurn] at h
      rw [← h.1]
  | cons call rest ih =>
      intro request invocations request' invocations' h
      simp only [toolTurn] at h
      split at h
      · simp at h
      · have h2 := ih _ _ _ _ h
        exact h2

/-- C9: the three request-body builders are functions of model, messages,
temperature, max_tokens, tools and the streaming flag only: two requests
differing only in metadata produce identical wire bodies, and the tool loop's
request evolution preserves the metadata value unmodified. -/
theorem C9_metadata_never_sent (request : ChatRequest) (m₁ m₂ : Json) (stream : Bool) :
    OpenAi.build_chat_body { request with metadata := m₁ } stream =
      OpenAi.build_chat_body { request with metadata := m₂ } stream ∧
    Gemini.build_generate_body { request with metadata := m₁ } =
      Gemini.build_generate_body { request with metadata := m₂ } ∧
    Anthropic.build_messages_body { request with metadata := m₁ } stream =
      Anthropic.build_messages_body { request with metadata := m₂ } stream ∧
    (∀ tools invocations calls request' invocations',
      toolTurn tools { request with metadata := m₁ } invocations calls =
        .ok (request', invocations') →
      request'.metadata = m₁) := by
  refine ⟨rfl, rfl, rfl, ?_⟩
  intro tools invocations calls request' invocations' h
  exact toolTurn_metadata tools calls _ invocations request' invocations' h

/-- C9 witness: instantiation at a concrete request, two distinct metadata
values, and a concrete one-call tool turn. -/
theorem C9_metadata_never_sent_witness :
    OpenAi.build_chat_body
      { model := "gpt-4o-mini",
        messages := [{ role := Role.User, content := "Say hello" }],
        temperature := none, max_tokens := some 32, tools := [],
        metadata := Json.obj [("trace", Json.str "a")] } true =
    OpenAi.build_chat_body
      { model := "gpt-4o-mini",
        messages := [{ role := Role.User, content := "Say hello" }],
        temperature := none, max_tokens := some 32, tools := [],
        metadata := Json.null } true ∧
    (∀ request' invocations',
      toolTurn (fun _ args => .ok args)
        { model := "gpt-4o-mini",
          messages := [{ role := Role.User, content := "Say hello" }],
          temperature := none, max_tokens := some 32, tools := [],
          metadata := Json.obj [("trace", Json.str "a")] } []
        [{ id := "call-1", name := "time.now", arguments := Json.null }] =
        .ok (request', invocations') →
      request'.metadata = Json.obj [("trace", Json.str "a")]) := by
  have h := C9_metadata_never_sent
    { model := "gpt-4o-mini",
      messages := [{ role := Role.User, content := "Say hello" }],
      temperature := none, max_tokens := some 32, tools := [],
      metadata := Json.null }
    (Json.obj [("trace", Json.str "a")]) Json.null true
  exact ⟨h.1, fun request' invocations' hturn =>
    h.2.2.2 (fun _ args => .ok args) [] _ request' invocations' hturn⟩

/-- C6: for every adapter and non-2xx status, 401 and 403 map to
Authentication, 429 maps to RateLimited, and every other non-2xx status maps
to Provider with the error.message extracted from a JSON-parseable body and
the raw body otherwise. -/
theorem C6_http_error_mapping (parse : String → Option Json) (status : Nat)
    (body : String) (hns : ¬ (200 ≤ status ∧ status < 300)) :
    ((status = 401 ∨ status = 403) →
      OpenAi.parse_http_error parse status body = .Authentication ∧
      Anthropic.parse_http_error parse status body = .Authentication ∧
      Gemini.parse_http_error parse status body = .Authentication) ∧
    (status = 429 →
      OpenAi.parse_http_error parse status body = .RateLimited ∧
      Anthropic.parse_http_error parse status body = .RateLimited ∧
      Gemini.parse_http_error parse status body = .RateLimited) ∧
    (¬ (status = 401 ∨ status = 403) → status ≠ 429 →
      OpenAi.parse_http_error parse status body =
        .Provider (OpenAi.extract_provider_error parse body) ∧
      Anthropic.parse_http_error parse status body =
        .Provider (Anthropic.extract_provider_error parse body) ∧
      Gemini.parse_http_error parse status body =
        .Provider (Gemini.extract_provider_error parse body)) ∧
    (∀ v message, parse body = some v →
      ((v.get "error").bind (fun e => (e.get "message").bind Json.as_str)) =
        some message →
      OpenAi.extract_provider_error parse body = message) ∧
    (((parse body).bind (fun v => v.get "error")).bind
        (fun e => (e.get "message").bind Json.as_str) = none →
      OpenAi.extract_provider_error parse body = body) := by
  refine ⟨?_, ?_, ?_, ?_, ?_⟩
  · intro hauth
    simp [OpenAi.parse_http_error, Anthropic.parse_http_error,
      Gemini.parse_http_error, hauth]
  · intro hrate
    subst hrate
    simp [OpenAi.parse_http_error, Anthropic.parse_http_error,
      Gemini.parse_http_error]
  · intro hnota hnotr
    simp [OpenAi.parse_http_error, Anthropic.parse_http_error,
      Gemini.parse_http_error, hnota, hnotr]
  · intro v message hv hmsg
    simp [OpenAi.extract_provider_error, hv, hmsg]
  · intro hnone
    simp [OpenAi.extract_provider_error, hnone]

/-- C6 witness: concrete statuses 403, 429 and 500, with a body that does not
parse as JSON. -/
theorem C6_http_error_mapping_witness :
    OpenAi.parse_http_error (fun _ => none) 403 "denied" = .Authentication ∧
    Anthropic.parse_http_error (fun _ => none) 429 "slow down" = .RateLimited ∧
    Gemini.parse_http_error (fun _ => none) 500 "boom" = .Provider "boom" := by
  have h403 := C6_http_error_mapping (fun _ => none) 403 "denied" (by omega)
  have h429 := C6_http_error_mapping (fun _ => none) 429 "slow down" (by omega)
  have h500 := C6_http_error_mapping (fun _ => none) 500 "boom" (by omega)
  refine ⟨(h403.1 (Or.inr rfl)).1, (h429.2.1 rfl).2.1, ?_⟩
  have := (h500.2.2.1 (by omega) (by omega)).2.2
  rw [this]
  rfl

/-- C7: an empty-after-trim model or an empty message list yields a Validation
error from the validator, and every client entry point returns that same
Validation error whatever the adapter is (so the adapter is never consulted);
a request passing both checks validates and is forwarded to the adapter
unchanged. -/
theorem C7_validation_gate :
    (∀ request : ChatRequest,
      (strTrim request.model).isEmpty = true ∨ request.messages.isEmpty = true →
      ∃ msg, validate_request request = .error (.Validation msg) ∧
        ∀ (adapter : ChatAdapter) (tools : ToolExecutor) (options : ToolLoopOptions),
          Client.chat adapter request = .error (.Validation msg) ∧
          Client.chat_stream adapter request = .error (.Validation msg) ∧
          Client.chat_with_tools adapter tools request options =
            .error (.Validation msg) ∧
          Client.chat_with_tools_streaming adapter tools request options =
            .error (.Validation msg)) ∧
    (∀ request : ChatRequest,
      (strTrim request.model).isEmpty = false → request.messages.isEmpty = false →
      validate_request request = .ok () ∧
      ∀ adapter : ChatAdapter,
        Client.chat adapter request = adapter.chat request ∧
        Client.chat_stream adapter request = adapter.chat_stream request) := by
  constructor
  · intro request hbad
    by_cases hm : (strTrim request.model).isEmpty
    · refine ⟨"model cannot be empty", ?_, ?_⟩
      · simp [validate_request, hm]
      · intro adapter tools options
        refine ⟨?_, ?_, ?_, ?_⟩ <;>
          simp [Client.chat, Client.chat_stream, Client.chat_with_tools,
            Client.chat_with_tools_streaming, run_tool_loop, validate_request, hm]
    · have hmsg : request.messages.isEmpty = true := by
        rcases hbad with h | h
        · exact absurd h hm
        · exact h
      refine ⟨"messages cannot be empty", ?_, ?_⟩
      · simp [validate_request, hm, hmsg]
      · intro adapter tools options
        refine ⟨?_, ?_, ?_, ?_⟩ <;>
          simp [Client.chat, Client.chat_stream, Client.chat_with_tools,
            Client.chat_with_tools_streaming, run_tool_loop, validate_request,
            hm, hmsg]
  · intro request hm hmsg
    refine ⟨by simp [validate_request, hm, hmsg], ?_⟩
    intro adapter
    constructor <;> simp [Client.chat, Client.chat_stream, validate_request, hm, hmsg]

/-- An always-rate-limited adapter, used by witnesses. -/
def rateLimitedAdapter : ChatAdapter where
  chat := fun _ => .error .RateLimited
  chat_stream := fun _ => .ok []

/-- An executor echoing its arguments, used by witnesses. -/
def echoExecutor : ToolExecutor := fun _ args => .ok args

/-- A request whose model is whitespace-only, used by witnesses. -/
def blankModelRequest : ChatRequest where
  model := "  "
  messages := [{ role := Role.User, content := "hi" }]
  temperature := none
  max_tokens := none
  tools := []
  metadata := Json.null

/-- A request whose model is form feed, no-break space and space only —
whitespace beyond the common ASCII escapes, which str::trim also strips.
Used by witnesses. -/
def formFeedModelRequest : ChatRequest where
  model := "\x0C  "
  messages := [{ role := Role.User, content := "hi" }]
  temperature := none
  max_tokens := none
  tools := []
  metadata := Json.null

/-- A well-formed request, used by witnesses. -/
def okRequest : ChatRequest where
  model := "m"
  messages := [{ role := Role.User, content := "hi" }]
  temperature := none
  max_tokens := none
  tools := []
  metadata := Json.null

/-- C7 witness: a whitespace-only model is rejected without consulting the
adapter, and a well-formed request is forwarded unchanged. -/
theorem C7_validation_gate_witness :
    (∃ msg, Client.chat rateLimitedAdapter blankModelRequest =
      .error (.Validation msg)) ∧
    (∃ msg, Client.chat rateLimitedAdapter formFeedModelRequest =
      .error (.Validation msg)) ∧
    Client.chat rateLimitedAdapter okRequest = .error .RateLimited := by
  refine ⟨?_, ?_, ?_⟩
  · obtain ⟨msg, hval, hall⟩ :=
      C7_validation_gate.1 blankModelRequest (Or.inl (by decide))
    exact ⟨msg, (hall rateLimitedAdapter echoExecutor ⟨8⟩).1⟩
  · obtain ⟨msg, hval, hall⟩ :=
      C7_validation_gate.1 formFeedModelRequest (Or.inl (by decide))
    exact ⟨msg, (hall rateLimitedAdapter echoExecutor ⟨8⟩).1⟩
  · have h :=
      ((C7_validation_gate.2 okRequest (by decide) (by decide)).2
        rateLimitedAdapter).1
    rw [h]
    rfl

/-- C5 counterexample: a wire payload in which all three OpenAI usage counters
are present, but prompt_tokens is a JSON string rather than a number, is
parsed with usage omitted — refuting the claim's "if and only if all three
are present" as stated. -/
theorem C5_counterexample :
    ((Json.obj [("prompt_tokens", Json.str "10"), ("completion_tokens", Json.num 4),
      ("total_tokens", Json.num 14)]).get "prompt_tokens").isSome = true ∧
    ((Json.obj [("prompt_tokens", Json.str "10"), ("completion_tokens", Json.num 4),
      ("total_tokens", Json.num 14)]).get "completion_tokens").isSome = true ∧
    ((Json.obj [("prompt_tokens", Json.str "10"), ("completion_tokens", Json.num 4),
      ("total_tokens", Json.num 14)]).get "total_tokens").isSome = true ∧
    OpenAi.extract_usage (some (Json.obj
      [("prompt_tokens", Json.str "10"), ("completion_tokens", Json.num 4),
       ("total_tokens", Json.num 14)])) = none := by
  refine ⟨rfl, rfl, rfl, ?_⟩
  rfl

/-- C5 (amended): when the provider omits the total counter the parsed Usage
total is the saturating sum of input and output (Anthropic always computes it
this way, Gemini when totalTokenCount is absent); and for the OpenAI adapter,
usage is present in the parsed result if and only if all three counters are
present as unsigned-integer numbers in the wire payload. -/
theorem C5_usage_totals (v : Json) :
    (∀ u, Anthropic.extract_usage (some v) = some u →
      u.total_tokens = satAdd32 u.input_tokens u.output_tokens) ∧
    ((v.get "totalTokenCount").bind Json.as_u64 = none →
      ∀ u, Gemini.extract_usage (some v) = some u →
      u.total_tokens = satAdd32 u.input_tokens u.output_tokens) ∧
    ((OpenAi.extract_usage (some v)).isSome = true ↔
      (((v.get "prompt_tokens").bind Json.as_u64).isSome = true ∧
       ((v.get "completion_tokens").bind Json.as_u64).isSome = true ∧
       ((v.get "total_tokens").bind Json.as_u64).isSome = true)) := by
  refine ⟨?_, ?_, ?_⟩
  · intro u hu
    simp only [Anthropic.extract_usage] at hu
    cases hu
    rfl
  · intro htot u hu
    simp only [Gemini.extract_usage, htot] at hu
    cases hu
    rfl
  · constructor
    · intro h
      simp only [OpenAi.extract_usage] at h
      rcases hp : (v.get "prompt_tokens").bind Json.as_u64 with _ | p
      · rw [hp] at h; simp at h
      rcases hc : (v.get "completion_tokens").bind Json.as_u64 with _ | c
      · rw [hp, hc] at h; simp at h
      rcases ht : (v.get "total_tokens").bind Json.as_u64 with _ | t
      · rw [hp, hc, ht] at h; simp at h
      simp [hp, hc, ht]
    · rintro ⟨hp, hc, ht⟩
      rcases Option.isSome_iff_exists.mp hp with ⟨p, hpv⟩
      rcases Option.isSome_iff_exists.mp hc with ⟨c, hcv⟩
      rcases Option.isSome_iff_exists.mp ht with ⟨t, htv⟩
      simp [OpenAi.extract_usage, hpv, hcv, htv]

/-- C5 witness: the Anthropic and Gemini totals are computed as saturating
sums at a concrete payload, and a complete numeric OpenAI usage parses as
present. -/
theorem C5_usage_totals_witness :
    (∀ u, Anthropic.extract_usage (some (Json.obj
        [("input_tokens", Json.num 12), ("output_tokens", Json.num 5)])) = some u →
      u.total_tokens = satAdd32 u.input_tokens u.output_tokens) ∧
    (∀ u, Gemini.extract_usage (some (Json.obj
        [("promptTokenCount", Json.num 9), ("candidatesTokenCount", Json.num 2)])) =
        some u →
      u.total_tokens = satAdd32 u.input_tokens u.output_tokens) ∧
    (OpenAi.extract_usage (some (Json.obj
      [("prompt_tokens", Json.num 10), ("completion_tokens", Json.num 4),
       ("total_tokens", Json.num 14)]))).isSome = true := by
  refine ⟨?_, ?_, ?_⟩
  · exact (C5_usage_totals (Json.obj
      [("input_tokens", Json.num 12), ("output_tokens", Json.num 5)])).1
  · exact (C5_usage_totals (Json.obj
      [("promptTokenCount", Json.num 9), ("candidatesTokenCount", Json.num 2)])).2.1
      (by rfl)
  · exact (C5_usage_totals (Json.obj
      [("prompt_tokens", Json.num 10), ("completion_tokens", Json.num 4),
       ("total_tokens", Json.num 14)])).2.2.mpr ⟨rfl, rfl, rfl⟩

/-- C10: the Anthropic adapter always produces a Usage value when a usage
object is present: missing counters read as 0, the total is the saturating
sum, usage is absent only when the usage key is absent, and any stream payload
carrying usage (top level or under message.usage) yields a Usage event. -/
theorem C10_anthropic_usage_total (v p : Json) (ev : Option String) :
    (Anthropic.extract_usage (some v)).isSome = true ∧
    (∀ u, Anthropic.extract_usage (some v) = some u →
      u.total_tokens = satAdd32 u.input_tokens u.output_tokens ∧
      (v.get "input_tokens" = none → u.input_tokens = 0) ∧
      (v.get "output_tokens" = none → u.output_tokens = 0)) ∧
    Anthropic.extract_usage none = none ∧
    ((Anthropic.parse_chat_response p).usage.isSome = true ↔
      (p.get "usage").isSome = true) ∧
    ((v.get "usage").isSome = true ∨
      ((v.get "message").bind (fun m => m.get "usage")).isSome = true →
      ∃ u rest, Anthropic.parse_stream_payload v ev = StreamEvent.Usage u :: rest) := by
  refine ⟨by simp [Anthropic.extract_usage], ?_, rfl, ?_, ?_⟩
  · intro u hu
    simp only [Anthropic.extract_usage, Option.some.injEq] at hu
    subst hu
    refine ⟨rfl, ?_, ?_⟩
    · intro hin
      simp [hin, u32cast]
    · intro hout
      simp [hout, u32cast]
  · cases h : p.get "usage" with
    | none => simp [Anthropic.parse_chat_response, Anthropic.extract_usage, h]
    | some u0 => simp [Anthropic.parse_chat_response, Anthropic.extract_usage, h]
  · intro h
    cases hv : v.get "usage" with
    | some u0 =>
        exact ⟨_, _, by
          simp [Anthropic.parse_stream_payload, hv, Anthropic.extract_usage]
          exact ⟨rfl, rfl⟩⟩
    | none =>
        rcases h with h | h
        · rw [hv] at h; simp at h
        · rcases Option.isSome_iff_exists.mp h with ⟨u0, hu0⟩
          exact ⟨_, _, by
            simp [Anthropic.parse_stream_payload, hv, hu0,
              Anthropic.extract_usage]
            exact ⟨rfl, rfl⟩⟩

/-- C10 witness: a concrete usage object with only input_tokens present, and a
message_delta stream payload carrying usage. -/
theorem C10_anthropic_usage_total_witness :
    (Anthropic.extract_usage (some (Json.obj [("input_tokens", Json.num 10)]))).isSome
      = true ∧
    (∀ u, Anthropic.extract_usage (some (Json.obj [("input_tokens", Json.num 10)])) =
        some u →
      u.total_tokens = satAdd32 u.input_tokens u.output_tokens ∧
      ((Json.obj [("input_tokens", Json.num 10)]).get "output_tokens" = none →
        u.output_tokens = 0)) ∧
    (∃ u rest, Anthropic.parse_stream_payload
      (Json.obj [("type", Json.str "message_delta"),
                 ("usage", Json.obj [("output_tokens", Json.num 2)])])
      (some "message_delta") = StreamEvent.Usage u :: rest) := by
  have h := C10_anthropic_usage_total (Json.obj [("input_tokens", Json.num 10)])
    Json.null none
  have h2 := C10_anthropic_usage_total
    (Json.obj [("type", Json.str "message_delta"),
               ("usage", Json.obj [("output_tokens", Json.num 2)])])
    Json.null (some "message_delta")
  exact ⟨h.1, fun u hu => ⟨(h.2.1 u hu).1, (h.2.1 u hu).2.2⟩,
    h2.2.2.2.2 (Or.inl rfl)⟩

namespace Router

/-- Helper: unfolding chatRun on a retryable error at the head. -/
theorem chatRun_cons_retryable {α : Type} (lastError : Option ForgeError)
    (e : ForgeError) (rest : List (Except ForgeError α))
    (h : should_failover e = true) :
    chatRun lastError (.error e :: rest) =
      ((chatRun (some e) rest).1, (chatRun (some e) rest).2 + 1) := by
  rcases hx : chatRun (some e) rest with ⟨result, tried⟩
  simp [chatRun, h, hx]

/-- Helper: chatRun located at index i after a prefix of retryable errors. -/
theorem chatRun_at {α : Type} :
    ∀ (i : Nat) (l : List (Except ForgeError α)) (lastError : Option ForgeError),
      (∀ j, j < i → ∃ e, l[j]? = some (.error e) ∧ should_failover e = true) →
      ∀ x, l[i]? = some x →
        (∀ r, x = .ok r → chatRun lastError l = (.ok r, i + 1)) ∧
        (∀ e, x = .error e → should_failover e = false →
          chatRun lastError l = (.error e, i + 1)) := by
  intro i
  induction i with
  | zero =>
      intro l lastError hpre x hx
      cases l with
      | nil => simp at hx
      | cons y rest =>
          simp only [List.getElem?_cons_zero, Option.some.injEq] at hx
          subst hx
          constructor
          · intro r hr; subst hr; rfl
          · intro e he hnf; subst he; simp [chatRun, hnf]
  | succ i ih =>
      intro l lastError hpre x hx
      cases l with
      | nil => simp at hx
      | cons y rest =>
          rcases hpre 0 (Nat.succ_pos i) with ⟨e0, he0, he0r⟩
          simp only [List.getElem?_cons_zero, Option.some.injEq] at he0
          subst he0
          have hrest : ∀ j, j < i → ∃ e, rest[j]? = some (.error e) ∧
              should_failover e = true := by
            intro j hj
            simpa using hpre (j + 1) (Nat.succ_lt_succ hj)
          have hx' : rest[i]? = some x := by simpa using hx
          have hih := ih rest (some e0) hrest x hx'
          rw [chatRun_cons_retryable lastError e0 rest he0r]
          constructor
          · intro r hr
            rw [hih.1 r hr]
          · intro e he hnf
            rw [hih.2 e he hnf]

/-- Helper: chatRun when every result is a retryable error. -/
theorem chatRun_all_retryable {α : Type} :
    ∀ (l : List (Except ForgeError α)) (lastError : Option ForgeError),
      (∀ x ∈ l, ∃ e, x = .error e ∧ should_failover e = true) →
      l ≠ [] →
      ∃ e, l.getLast? = some (.error e) ∧ (chatRun lastError l).1 = .error e := by
  intro l
  induction l with
  | nil => intro lastError _ hne; exact absurd rfl hne
  | cons y rest ih =>
      intro lastError hall _
      rcases hall y (List.mem_cons_self y rest) with ⟨e0, hy, he0r⟩
      subst hy
      rw [chatRun_cons_retryable lastError e0 rest he0r]
      cases rest with
      | nil => exact ⟨e0, rfl, rfl⟩
      | cons z rest' =>
          rcases ih (some e0) (fun x hx => hall x (List.mem_cons_of_mem _ hx))
            (List.cons_ne_nil z rest') with ⟨e, hlast, hres⟩
          exact ⟨e, by rw [List.getLast?_cons_cons]; exact hlast, hres⟩

end Router

/-- C1: the failover router iterates child adapters in order up to the policy
cap; the first success is returned after invoking exactly the failing prefix
plus the succeeding adapter; a terminal error (Validation, Authentication,
Internal) is returned immediately with no adapter invoked beyond it; if every
candidate fails retryably the last retryable error is returned; and with no
candidates at all the pathological Internal error is returned.  The statement
covers chat and chat_stream at once, being polymorphic in the success type. -/
theorem C1_failover_router {α : Type}
    (adapters : List (ChatRequest → Except ForgeError α))
    (policy : Router.FailoverPolicy) (request : ChatRequest)
    (results : List (Except ForgeError α))
    (hres : results =
      (adapters.take policy.max_adapters_to_try).map (fun a => a request)) :
    (∀ i r, (∀ j, j < i → ∃ e, results[j]? = some (.error e) ∧
        Router.should_failover e = true) →
      results[i]? = some (.ok r) →
      Router.FailoverRouter.chat adapters policy request = .ok r ∧
      Router.FailoverRouter.chatTried adapters policy request = i + 1) ∧
    (∀ i e, (∀ j, j < i → ∃ e', results[j]? = some (.error e') ∧
        Router.should_failover e' = true) →
      results[i]? = some (.error e) → Router.should_failover e = false →
      Router.FailoverRouter.chat adapters policy request = .error e ∧
      Router.FailoverRouter.chatTried adapters policy request = i + 1) ∧
    ((∀ x ∈ results, ∃ e, x = .error e ∧ Router.should_failover e = true) →
      results ≠ [] →
      ∃ e, results.getLast? = some (.error e) ∧
        Router.FailoverRouter.chat adapters policy request = .error e) ∧
    (results = [] →
      Router.FailoverRouter.chat adapters policy request =
        .error (.Internal Router.exhaustedMessage)) := by
  refine ⟨?_, ?_, ?_, ?_⟩
  · intro i r hpre hi
    have h := (Router.chatRun_at i results none hpre _ hi).1 r rfl
    unfold Router.FailoverRouter.chat Router.FailoverRouter.chatTried
    rw [← hres, h]
    exact ⟨rfl, rfl⟩
  · intro i e hpre hi hnf
    have h := (Router.chatRun_at i results none hpre _ hi).2 e rfl hnf
    unfold Router.FailoverRouter.chat Router.FailoverRouter.chatTried
    rw [← hres, h]
    exact ⟨rfl, rfl⟩
  · intro hall hne
    rcases Router.chatRun_all_retryable results none hall hne with ⟨e, hlast, hchat⟩
    refine ⟨e, hlast, ?_⟩
    unfold Router.FailoverRouter.chat
    rw [← hres]
    exact hchat
  · intro hempty
    unfold Router.FailoverRouter.chat
    rw [← hres, hempty]
    rfl

/-- A concrete success response, used by witnesses. -/
def okResponse : ChatResponse where
  id := "2"
  model := "mock"
  output_text := "ok"
  tool_calls := []
  usage := none

/-- C1 witness: a transport failure is skipped and the second adapter's
success returned after two invocations; an authentication failure is terminal
after one invocation. -/
theorem C1_failover_router_witness :
    Router.FailoverRouter.chat
      [fun _ => .error (.Transport "timeout"), fun _ => .ok okResponse]
      ⟨10⟩ okRequest = .ok okResponse ∧
    Router.FailoverRouter.chatTried
      [fun _ => .error (.Transport "timeout"), fun _ => .ok okResponse]
      ⟨10⟩ okRequest = 2 ∧
    Router.FailoverRouter.chat
      [fun _ => .error .Authentication, fun _ => .ok okResponse]
      ⟨10⟩ okRequest = .error .Authentication ∧
    Router.FailoverRouter.chatTried
      [fun _ => .error .Authentication, fun _ => .ok okResponse]
      ⟨10⟩ okRequest = 1 := by
  have h1 := (C1_failover_router
    [fun _ => .error (.Transport "timeout"), fun _ => .ok okResponse]
    ⟨10⟩ okRequest [.error (.Transport "timeout"), .ok okResponse] rfl).1 1 okResponse
    (by
      intro j hj
      have hj0 : j = 0 := by omega
      subst hj0
      exact ⟨.Transport "timeout", rfl, rfl⟩)
    rfl
  have h2 := (C1_failover_router
    [fun _ => .error .Authentication, fun _ => .ok okResponse]
    ⟨10⟩ okRequest [.error .Authentication, .ok okResponse] rfl).2.1 0 .Authentication
    (by intro j hj; omega) rfl rfl
  exact ⟨h1.1, h1.2, h2.1, h2.2⟩

/-- C2: evaluation of the stream loops at the failing input.  A data record
arriving after the [DONE] terminator (OpenAI), or after a finishReason-bearing
payload (Gemini), still has its events emitted: the stream yields a TextDelta
after Done and does not end with Done, contradicting the claimed
exactly-one-Done-and-final property (the trailing synthesized Done is
suppressed because saw_done is already set). -/
theorem C2_events_after_done :
    OpenAi.chat_stream_events
      [OpenAi.SsePayload.doneLit,
       OpenAi.SsePayload.parsed (Json.obj [("choices", Json.arr [Json.obj
         [("delta", Json.obj [("content", Json.str "x")])]])])] false =
      ([StreamEvent.Done, StreamEvent.TextDelta "x"], none) ∧
    Gemini.chat_stream_events
      [Gemini.SsePayload.parsed (Json.obj [("candidates", Json.arr [Json.obj
         [("finishReason", Json.str "STOP")]])]),
       Gemini.SsePayload.parsed (Json.obj [("candidates", Json.arr [Json.obj
         [("content", Json.obj [("parts", Json.arr [Json.obj
           [("text", Json.str "x")]])])]])])] false =
      ([StreamEvent.Done, StreamEvent.TextDelta "x"], none) := by
  constructor
  · rfl
  · rfl

/-- The text payload of a TextDelta event. -/
def textDeltaOf : StreamEvent → Option String
  | .TextDelta delta => some delta
  | _ => none

/-- The usage payload of a Usage event. -/
def usageOf : StreamEvent → Option Usage
  | .Usage u => some u
  | _ => none

/-- The delta payload of a ToolCallDelta event for a given call id. -/
def toolDeltaFor (call_id : String) : StreamEvent → Option Json
  | .ToolCallDelta k delta => if k = call_id then some delta else none
  | _ => none

/-- The events the collector consumes: those before the first Done. -/
def consumedEvents (events : List StreamEvent) : List StreamEvent :=
  events.takeWhile (fun e => !e.isDone)

/-- In-order concatenation of a list of strings. -/
def concatStrings (l : List String) : String :=
  l.foldr (fun a b => a ++ b) ""

/-- Helper: consuming events is the same as consuming the prefix before the
first Done. -/
theorem collectEvents_consumed :
    ∀ (events : List StreamEvent) (st : CollectState),
      collectEvents events st = collectEvents (consumedEvents events) st := by
  intro events
  induction events with
  | nil => intro st; rfl
  | cons e rest ih =>
      intro st
      cases e with
      | TextDelta d => exact ih _
      | Usage u => exact ih _
      | ToolCallDelta k d => exact ih _
      | Done => rfl

/-- Helper: replacing the entry for a key produces exactly that entry under a
filter by the key, provided the map had at most one entry for it. -/
theorem insertDelta_filter_self :
    ∀ (l : List (String × Json)) (v : Json) (cid : String),
      (l.filter (fun p => p.1 == cid)).length ≤ 1 →
      (insertDelta l cid v).filter (fun p => p.1 == cid) = [(cid, v)] := by
  intro l
  induction l with
  | nil => intro v cid _; simp [insertDelta]
  | cons kv rest ih =>
      intro v cid hlen
      rcases kv with ⟨k, w⟩
      by_cases hk : k = cid
      · subst hk
        simp only [insertDelta, if_pos rfl]
        simp only [List.filter_cons, beq_self_eq_true, if_pos] at hlen ⊢
        have hrest : rest.filter (fun p => p.1 == k) = [] := by
          cases hflt : rest.filter (fun p => p.1 == k) with
          | nil => rfl
          | cons a t =>
              rw [hflt] at hlen
              simp at hlen
        simp [hrest]
      · have hk' : (k == cid) = false := beq_eq_false_iff_ne.mpr hk
        simp only [insertDelta, if_neg hk]
        simp only [List.filter_cons, hk'] at hlen ⊢
        simp only [Bool.false_eq_true, if_false] at hlen ⊢
        exact ih v cid hlen

/-- Helper: replacing the entry for one key leaves filters by other keys
unchanged. -/
theorem insertDelta_filter_other :
    ∀ (l : List (String × Json)) (k : String) (v : Json) (cid : String),
      k ≠ cid →
      (insertDelta l k v).filter (fun p => p.1 == cid) =
        l.filter (fun p => p.1 == cid) := by
  intro l
  induction l with
  | nil =>
      intro k v cid hne
      simp [insertDelta, beq_eq_false_iff_ne.mpr hne]
  | cons kv rest ih =>
      intro k v cid hne
      rcases kv with ⟨k', w⟩
      by_cases hk : k' = k
      · subst hk
        simp [insertDelta, List.filter_cons, beq_eq_false_iff_ne.mpr hne]
      · simp only [insertDelta, if_neg hk, List.filter_cons]
        rw [ih k v cid hne]

/-- Helper: insertion preserves the at-most-one-entry-per-key invariant. -/
theorem insertDelta_uniq
    (l : List (String × Json)) (k : String) (v : Json)
    (h : ∀ cid, (l.filter (fun p => p.1 == cid)).length ≤ 1) :
    ∀ cid, ((insertDelta l k v).filter (fun p => p.1 == cid)).length ≤ 1 := by
  intro cid
  by_cases hk : k = cid
  · subst hk
    rw [insertDelta_filter_self l v k (h k)]
    simp
  · rw [insertDelta_filter_other l k v cid hk]
    exact h cid

/-- Helper: getLast? of a cons in terms of the tail. -/
theorem getLast?_cons_eq {α : Type} (a : α) (l : List α) :
    (a :: l).getLast? = (match l.getLast? with
      | some x => some x
      | none => some a) := by
  induction l generalizing a with
  | nil => rfl
  | cons b t ih =>
      rw [List.getLast?_cons_cons, ih b]
      cases t.getLast? <;> rfl

/-- Helper: the collector state after consuming a Done-free event list: text
is extended by the in-order concatenation of text deltas, usage becomes the
last usage observed (kept if none), and per call id the accumulated delta is
the last delta received for that id. -/
theorem collectEvents_spec :
    ∀ (events : List StreamEvent) (st : CollectState),
      (∀ e ∈ events, e.isDone = false) →
      (∀ cid, (st.tool_call_deltas.filter (fun p => p.1 == cid)).length ≤ 1) →
      (collectEvents events st).text =
        st.text ++ concatStrings (events.filterMap textDeltaOf) ∧
      (collectEvents events st).usage =
        (match (events.filterMap usageOf).getLast? with
         | some u => some u
         | none => st.usage) ∧
      ∀ cid, (collectEvents events st).tool_call_deltas.filter
          (fun p => p.1 == cid) =
        (match (events.filterMap (toolDeltaFor cid)).getLast? with
         | some d => [(cid, d)]
         | none => st.tool_call_deltas.filter (fun p => p.1 == cid)) := by
  intro events
  induction events with
  | nil =>
      intro st _ _
      refine ⟨by simp [collectEvents, concatStrings], by simp [collectEvents], ?_⟩
      intro cid
      simp [collectEvents]
  | cons e rest ih =>
      intro st hnd huniq
      have hrest : ∀ x ∈ rest, x.isDone = false :=
        fun x hx => hnd x (List.mem_cons_of_mem e hx)
      cases e with
      | TextDelta d =>
          have h := ih { st with text := st.text ++ d } hrest huniq
          refine ⟨?_, ?_, ?_⟩
          · rw [show collectEvents (StreamEvent.TextDelta d :: rest) st =
              collectEvents rest { st with text := st.text ++ d } from rfl]
            rw [h.1]
            simp [textDeltaOf, concatStrings, String.append_assoc]
          · exact h.2.1
          · intro cid
            have := h.2.2 cid
            simpa [toolDeltaFor] using this
      | Usage u =>
          have h := ih { st with usage := some u } hrest huniq
          refine ⟨?_, ?_, ?_⟩
          · rw [show collectEvents (StreamEvent.Usage u :: rest) st =
              collectEvents rest { st with usage := some u } from rfl]
            rw [h.1]
            simp [textDeltaOf]
          · rw [show collectEvents (StreamEvent.Usage u :: rest) st =
              collectEvents rest { st with usage := some u } from rfl]
            rw [h.2.1]
            rw [show (StreamEvent.Usage u :: rest).filterMap usageOf =
              u :: rest.filterMap usageOf from rfl]
            rw [getLast?_cons_eq]
            cases (rest.filterMap usageOf).getLast? <;> simp
          · intro cid
            have := h.2.2 cid
            simpa [toolDeltaFor] using this
      | ToolCallDelta k d =>
          have huniq' := insertDelta_uniq st.tool_call_deltas k d huniq
          have h := ih
            { st with tool_call_deltas := insertDelta st.tool_call_deltas k d }
            hrest huniq'
          refine ⟨?_, ?_, ?_⟩
          · rw [show collectEvents (StreamEvent.ToolCallDelta k d :: rest) st =
              collectEvents rest
                { st with tool_call_deltas := insertDelta st.tool_call_deltas k d }
              from rfl]
            rw [h.1]
            simp [textDeltaOf]
          · rw [show collectEvents (StreamEvent.ToolCallDelta k d :: rest) st =
              collectEvents rest
                { st with tool_call_deltas := insertDelta st.tool_call_deltas k d }
              from rfl]
            rw [h.2.1]
            simp [usageOf]
          · intro cid
            rw [show collectEvents (StreamEvent.ToolCallDelta k d :: rest) st =
              collectEvents rest
                { st with tool_call_deltas := insertDelta st.tool_call_deltas k d }
              from rfl]
            have hcid := h.2.2 cid
            by_cases hk : k = cid
            · subst hk
              rw [show (StreamEvent.ToolCallDelta k d :: rest).filterMap
                  (toolDeltaFor k) = d :: rest.filterMap (toolDeltaFor k) from by
                simp [toolDeltaFor]]
              rw [getLast?_cons_eq]
              rw [hcid]
              have hself := insertDelta_filter_self st.tool_call_deltas d k (huniq k)
              cases (rest.filterMap (toolDeltaFor k)).getLast? <;> simp_all
            · rw [show (StreamEvent.ToolCallDelta k d :: rest).filterMap
                  (toolDeltaFor cid) = rest.filterMap (toolDeltaFor cid) from by
                simp [toolDeltaFor, hk]]
              rw [hcid]
              have hother := insertDelta_filter_other st.tool_call_deltas k d cid hk
              cases (rest.filterMap (toolDeltaFor cid)).getLast? <;> simp_all
      | Done =>
          have := hnd StreamEvent.Done (List.mem_cons_self _ _)
          simp [StreamEvent.isDone] at this

/-- Helper: filtering projected tool calls by id is projecting the filtered
delta entries. -/
theorem projectToolCalls_filter :
    ∀ (deltas : List (String × Json)) (cid : String),
      (projectToolCalls deltas).filter (fun c => c.id == cid) =
        projectToolCalls (deltas.filter (fun p => p.1 == cid)) := by
  intro deltas
  induction deltas with
  | nil => intro cid; rfl
  | cons kv rest ih =>
      intro cid
      rcases kv with ⟨k, d⟩
      by_cases hk : k = cid
      · subst hk
        simp only [projectToolCalls, List.map_cons, List.filter_cons,
          beq_self_eq_true, if_pos]
        have := ih k
        simp only [projectToolCalls] at this
        simp [this]
      · have hk' : (k == cid) = false := beq_eq_false_iff_ne.mpr hk
        simp only [projectToolCalls, List.map_cons, List.filter_cons, hk']
        have := ih cid
        simp only [projectToolCalls] at this
        simpa [hk'] using this

/-- C4: the stream collector synthesizes a response with id
"stream-collected" and the request's model; its text is the in-order
concatenation of the TextDelta payloads it consumed (those before the first
Done); its usage is the last Usage observed (none if none); and it carries one
ToolCall per distinct call id whose name and arguments are projected from the
most recent delta for that id (delta.name then delta.function.name, default
"unknown_tool"; delta.arguments then delta.function.arguments, default
null). -/
theorem C4_stream_collect (adapter : ChatAdapter) (request : ChatRequest)
    (events : List StreamEvent)
    (hvalid : validate_request request = .ok ())
    (hstream : adapter.chat_stream request = .ok events) :
    ∃ resp, Client.chat_stream_collect adapter request = .ok resp ∧
      resp.id = "stream-collected" ∧
      resp.model = request.model ∧
      resp.output_text =
        concatStrings ((consumedEvents events).filterMap textDeltaOf) ∧
      resp.usage = ((consumedEvents events).filterMap usageOf).getLast? ∧
      ∀ cid, resp.tool_calls.filter (fun c => c.id == cid) =
        (match ((consumedEvents events).filterMap (toolDeltaFor cid)).getLast? with
         | some d => [{ id := cid, name := deltaToolName d,
                        arguments := deltaToolArguments d }]
         | none => []) := by
  have hcs : Client.chat_stream adapter request = .ok events := by
    simp [Client.chat_stream, hvalid, hstream]
  have hcollect : Client.chat_stream_collect adapter request = .ok
      { id := "stream-collected", model := request.model,
        output_text :=
          (collectEvents events { text := "", usage := none, tool_call_deltas := [] }).text,
        tool_calls := projectToolCalls
          (collectEvents events
            { text := "", usage := none, tool_call_deltas := [] }).tool_call_deltas,
        usage :=
          (collectEvents events
            { text := "", usage := none, tool_call_deltas := [] }).usage } := by
    simp [Client.chat_stream_collect, hcs]
  have hnd : ∀ e ∈ consumedEvents events, e.isDone = false := by
    intro e he
    have := List.mem_takeWhile_imp he
    simpa using this
  have hspec := collectEvents_spec (consumedEvents events)
    { text := "", usage := none, tool_call_deltas := [] } hnd
    (by intro cid; simp)
  refine ⟨_, hcollect, rfl, rfl, ?_, ?_, ?_⟩
  · show (collectEvents events
      { text := "", usage := none, tool_call_deltas := [] }).text = _
    rw [collectEvents_consumed, hspec.1]
    simp
  · show (collectEvents events
      { text := "", usage := none, tool_call_deltas := [] }).usage = _
    rw [collectEvents_consumed, hspec.2.1]
    cases ((consumedEvents events).filterMap usageOf).getLast? <;> rfl
  · intro cid
    show (projectToolCalls (collectEvents events
      { text := "", usage := none, tool_call_deltas := [] }).tool_call_deltas).filter
        (fun c => c.id == cid) = _
    rw [collectEvents_consumed, projectToolCalls_filter, hspec.2.2 cid]
    cases ((consumedEvents events).filterMap (toolDeltaFor cid)).getLast? with
    | none => simp [projectToolCalls]
    | some d => simp [projectToolCalls]

/-- An adapter with a fixed event stream, used by the C4 witness: two text
deltas, one usage, two deltas for one call id, Done, and a post-Done event the
collector must ignore. -/
def collectAdapter : ChatAdapter where
  chat := fun _ => .error .RateLimited
  chat_stream := fun _ => .ok
    [StreamEvent.TextDelta "Hello",
     StreamEvent.TextDelta " world",
     StreamEvent.Usage { input_tokens := 10, output_tokens := 2, total_tokens := 12 },
     StreamEvent.ToolCallDelta "c1" (Json.obj [("name", Json.str "first")]),
     StreamEvent.ToolCallDelta "c1" (Json.obj [("name", Json.str "time.now")]),
     StreamEvent.Done,
     StreamEvent.TextDelta "ignored"]

/-- C4 witness: at the concrete stream, the collected response concatenates
the pre-Done deltas, keeps the last usage, and keeps only the last delta for
the repeated call id. -/
theorem C4_stream_collect_witness :
    ∃ resp, Client.chat_stream_collect collectAdapter okRequest = .ok resp ∧
      resp.output_text = "Hello world" ∧
      resp.usage = some { input_tokens := 10, output_tokens := 2, total_tokens := 12 } ∧
      resp.tool_calls.filter (fun c => c.id == "c1") =
        [{ id := "c1", name := "time.now", arguments := Json.null }] := by
  obtain ⟨resp, heq, hid, hmodel, htext, husage, htools⟩ :=
    C4_stream_collect collectAdapter okRequest
      [StreamEvent.TextDelta "Hello",
       StreamEvent.TextDelta " world",
       StreamEvent.Usage { input_tokens := 10, output_tokens := 2, total_tokens := 12 },
       StreamEvent.ToolCallDelta "c1" (Json.obj [("name", Json.str "first")]),
       StreamEvent.ToolCallDelta "c1" (Json.obj [("name", Json.str "time.now")]),
       StreamEvent.Done,
       StreamEvent.TextDelta "ignored"]
      (by rfl) (by rfl)
  refine ⟨resp, heq, ?_, ?_, ?_⟩
  · rw [htext]; rfl
  · rw [husage]; rfl
  · rw [htools "c1"]; rfl

/-- A k-turn prefix of the tool loop: from a request and accumulated
invocations, each of k successive turns gets a response carrying tool calls
whose executor calls all succeed, and the loop state advances exactly as
run_tool_loop advances it. -/
inductive ToolTurns (send : ChatRequest → Except ForgeError ChatResponse)
    (tools : ToolExecutor) :
    ChatRequest → List ToolInvocation → Nat → ChatRequest →
    List ToolInvocation → Prop where
  | refl (request : ChatRequest) (invocations : List ToolInvocation) :
      ToolTurns send tools request invocations 0 request invocations
  | step {request : ChatRequest} {invocations : List ToolInvocation} {k : Nat}
      {mid : ChatRequest} {invs : List ToolInvocation} {response : ChatResponse}
      {next : ChatRequest} {invs' : List ToolInvocation} :
      ToolTurns send tools request invocations k mid invs →
      send mid = .ok response →
      response.tool_calls.isEmpty = false →
      toolTurn tools
        { mid with messages := mid.messages ++
            [{ role := Role.Assistant, content := response.output_text }] }
        invs response.tool_calls = .ok (next, invs') →
      ToolTurns send tools request invocations (k + 1) next invs'

/-- Helper: the loop after a k-turn prefix is the loop from the prefix's end
state with k units of fuel consumed. -/
theorem loopGo_turns (send : ChatRequest → Except ForgeError ChatResponse)
    (tools : ToolExecutor) (N : Nat)
    {request : ChatRequest} {invocations : List ToolInvocation} {k : Nat}
    {mid : ChatRequest} {invs : List ToolInvocation}
    (ht : ToolTurns send tools request invocations k mid invs) :
    ∀ fuel, k ≤ fuel →
      loopGo send tools N fuel request invocations =
        loopGo send tools N (fuel - k) mid invs := by
  induction ht with
  | refl => intro fuel _; simp
  | step hprev hsend hcalls hturn ih =>
      intro fuel hk
      rename_i k' mid' invs' response next invsn
      have hk' : k' ≤ fuel := by omega
      have hfk : fuel - k' = (fuel - (k' + 1)) + 1 := by omega
      rw [ih fuel hk', hfk]
      simp only [loopGo, hsend, hcalls, hturn]
      simp

/-- Helper: all executor calls succeeding makes every tool turn succeed. -/
theorem toolTurn_total (tools : ToolExecutor)
    (hexec : ∀ name args, ∃ output, tools name args = .ok output) :
    ∀ (calls : List ToolCall) (request : ChatRequest)
      (invocations : List ToolInvocation),
      ∃ request' invocations',
        toolTurn tools request invocations calls = .ok (request', invocations') := by
  intro calls
  induction calls with
  | nil => intro r i; exact ⟨r, i, rfl⟩
  | cons c rest ih =>
      intro r i
      rcases hexec c.name c.arguments with ⟨output, hout⟩
      rcases ih
        { r with messages := r.messages ++
            [{ role := Role.Tool,
               content := (toolReplyJson c.id c.name output).render }] }
        (i ++ [{ call_id := c.id, name := c.name, input := c.arguments,
                 output := output }]) with ⟨r', i', hrest⟩
      refine ⟨r', i', ?_⟩
      simp only [toolTurn, hout]
      exact hrest

/-- Helper: when every turn keeps producing tool calls and every executor call
succeeds, the loop consumes all its fuel and fails with the cap message. -/
theorem loopGo_exceeds (send : ChatRequest → Except ForgeError ChatResponse)
    (tools : ToolExecutor) (N : Nat)
    (hresp : ∀ r, ∃ resp, send r = .ok resp ∧ resp.tool_calls.isEmpty = false)
    (hexec : ∀ name args, ∃ output, tools name args = .ok output) :
    ∀ (fuel : Nat) (request : ChatRequest) (invocations : List ToolInvocation),
      loopGo send tools N fuel request invocations =
        .error (.Provider (exceededMessage N)) := by
  intro fuel
  induction fuel with
  | zero => intro r i; rfl
  | succ fuel ih =>
      intro r i
      rcases hresp r with ⟨resp, hsend, hcalls⟩
      rcases toolTurn_total tools hexec resp.tool_calls
        { r with messages := r.messages ++
            [{ role := Role.Assistant, content := resp.output_text }] }
        i with ⟨r', i', hturn⟩
      simp only [loopGo, hsend, hcalls, hturn]
      simpa using ih r' i'

/-- Helper: a k-turn trace ending in a tool-call-free response makes
run_tool_loop return that response with iterations k + 1 and the trace's
invocations. -/
theorem run_tool_loop_turns (send : ChatRequest → Except ForgeError ChatResponse)
    (tools : ToolExecutor) (request : ChatRequest) (N : Nat)
    (hvld : validate_request request = .ok ())
    {k : Nat} {mid : ChatRequest} {invs : List ToolInvocation}
    {finalResp : ChatResponse}
    (ht : ToolTurns send tools request [] k mid invs)
    (hsend : send mid = .ok finalResp)
    (hempty : finalResp.tool_calls.isEmpty = true) (hk : k < N) :
    run_tool_loop send tools request { max_iterations := N } =
      .ok { final_response := finalResp, tool_invocations := invs,
            iterations := k + 1 } := by
  have hN : ¬ N = 0 := by omega
  have hrun : run_tool_loop send tools request { max_iterations := N } =
      loopGo send tools N N request [] := by
    simp [run_tool_loop, hvld, hN]
  rw [hrun, loopGo_turns send tools N ht N (Nat.le_of_lt hk)]
  have hnk : N - k = (N - (k + 1)) + 1 := by omega
  rw [hnk]
  simp only [loopGo, hsend, hempty, if_pos]
  have : N - (N - (k + 1)) = k + 1 := by omega
  rw [this]

/-- C3: a tool-call-free response ends the loop with iterations equal to the
turns taken (1 on a tool-free first response; k + 1 after k tool-call turns,
with the k turns' invocations recorded in order); max_iterations = 0 yields a
Validation error independently of the adapter (no adapter call); and when
every turn carries tool calls the loop fails with the cap message naming the
configured cap. -/
theorem C3_tool_loop_iterations (send : ChatRequest → Except ForgeError ChatResponse)
    (tools : ToolExecutor) (request : ChatRequest) (N : Nat) :
    ((∀ send' : ChatRequest → Except ForgeError ChatResponse,
        run_tool_loop send tools request { max_iterations := 0 } =
          run_tool_loop send' tools request { max_iterations := 0 }) ∧
      ∃ msg, run_tool_loop send tools request { max_iterations := 0 } =
        .error (.Validation msg)) ∧
    (validate_request request = .ok () → 0 < N →
      ∀ resp, send request = .ok resp → resp.tool_calls.isEmpty = true →
      run_tool_loop send tools request { max_iterations := N } =
        .ok { final_response := resp, tool_invocations := [], iterations := 1 }) ∧
    (validate_request request = .ok () →
      ∀ k mid invs finalResp,
        ToolTurns send tools request [] k mid invs →
        send mid = .ok finalResp → finalResp.tool_calls.isEmpty = true → k < N →
        run_tool_loop send tools request { max_iterations := N } =
          .ok { final_response := finalResp, tool_invocations := invs,
                iterations := k + 1 }) ∧
    (validate_request request = .ok () → 0 < N →
      (∀ r, ∃ resp, send r = .ok resp ∧ resp.tool_calls.isEmpty = false) →
      (∀ name args, ∃ output, tools name args = .ok output) →
      run_tool_loop send tools request { max_iterations := N } =
        .error (.Provider (exceededMessage N))) := by
  refine ⟨⟨?_, ?_⟩, ?_, ?_, ?_⟩
  · intro send'
    cases hv : validate_request request <;> simp [run_tool_loop, hv]
  · unfold run_tool_loop validate_request
    by_cases hm : (strTrim request.model).isEmpty
    · exact ⟨"model cannot be empty", by simp [hm]⟩
    · by_cases hmm : request.messages.isEmpty
      · exact ⟨"messages cannot be empty", by simp [hm, hmm]⟩
      · exact ⟨"max_iterations must be greater than 0", by simp [hm, hmm]⟩
  · intro hvld hN resp hsend hempty
    exact run_tool_loop_turns send tools request N hvld
      (ToolTurns.refl request []) hsend hempty hN
  · intro hvld k mid invs finalResp ht hsend hempty hk
    exact run_tool_loop_turns send tools request N hvld ht hsend hempty hk
  · intro hvld hN hresp hexec
    have hNn : ¬ N = 0 := by omega
    have hrun : run_tool_loop send tools request { max_iterations := N } =
        loopGo send tools N N request [] := by
      simp [run_tool_loop, hvld, hNn]
    rw [hrun]
    exact loopGo_exceeds send tools N hresp hexec N request []

/-- A response requesting one tool call, used by witnesses. -/
def toolCallResponse : ChatResponse where
  id := "1"
  model := "m"
  output_text := ""
  tool_calls := [{ id := "call-1", name := "time.now",
                   arguments := Json.obj [("timezone", Json.str "UTC")] }]
  usage := none

/-- A tool-call-free final response, used by witnesses. -/
def finalAnswerResponse : ChatResponse where
  id := "2"
  model := "m"
  output_text := "Current UTC time is 12:00"
  tool_calls := []
  usage := none

/-- A scripted adapter: the original one-message request gets a tool call,
any grown request gets the final answer.  Used by witnesses. -/
def scriptedSend : ChatRequest → Except ForgeError ChatResponse := fun r =>
  if r.messages.length ≤ 1 then .ok toolCallResponse else .ok finalAnswerResponse

/-- C3 witness: one tool-call turn then a tool-free turn gives iterations 2
with the single invocation recorded; a permanently tool-calling adapter under
cap 1 fails with the cap message. -/
theorem C3_tool_loop_iterations_witness :
    run_tool_loop scriptedSend echoExecutor okRequest { max_iterations := 8 } =
      .ok { final_response := finalAnswerResponse,
            tool_invocations :=
              [{ call_id := "call-1", name := "time.now",
                 input := Json.obj [("timezone", Json.str "UTC")],
                 output := Json.obj [("timezone", Json.str "UTC")] }],
            iterations := 2 } ∧
    run_tool_loop (fun _ => .ok toolCallResponse) echoExecutor okRequest
      { max_iterations := 1 } = .error (.Provider (exceededMessage 1)) := by
  constructor
  · have htrace : ToolTurns scriptedSend echoExecutor okRequest [] 1 _ _ :=
      ToolTurns.step (ToolTurns.refl okRequest [])
        (show scriptedSend okRequest = .ok toolCallResponse from rfl) rfl rfl
    exact (C3_tool_loop_iterations scriptedSend echoExecutor okRequest 8).2.2.1
      rfl 1 _ _ finalAnswerResponse htrace rfl rfl (by omega)
  · exact (C3_tool_loop_iterations (fun _ => .ok toolCallResponse) echoExecutor
      okRequest 1).2.2.2 rfl (by omega)
      (fun r => ⟨toolCallResponse, rfl, rfl⟩)
      (fun name args => ⟨args, rfl⟩)

/-- C8: on a tool-call-bearing turn, exactly one Assistant message carrying
the response's output_text verbatim is appended before the tool calls run;
each call invokes the executor with (name, arguments) in order; a failure
aborts with Provider naming the tool and the executor error; each success
appends one Tool-role message whose content is the serialized
(name, output, tool_call_id) object and records the invocation
(call_id, name, input, output) in order. -/
theorem C8_tool_turn_mechanics (tools : ToolExecutor) :
    (∀ (calls : List ToolCall) (outputs : List Json) (request : ChatRequest)
        (invocations : List ToolInvocation),
      List.Forall₂ (fun (call : ToolCall) (output : Json) =>
        tools call.name call.arguments = .ok output) calls outputs →
      toolTurn tools request invocations calls = .ok
        ({ request with messages := request.messages ++
            (calls.zip outputs).map (fun p =>
              { role := Role.Tool,
                content := (toolReplyJson p.1.id p.1.name p.2).render }) },
         invocations ++ (calls.zip outputs).map (fun p =>
           { call_id := p.1.id, name := p.1.name, input := p.1.arguments,
             output := p.2 }))) ∧
    (∀ (pre : List ToolCall) (call : ToolCall) (post : List ToolCall)
        (outputs : List Json) (request : ChatRequest)
        (invocations : List ToolInvocation) (e : ToolError),
      List.Forall₂ (fun (c : ToolCall) (output : Json) =>
        tools c.name c.arguments = .ok output) pre outputs →
      tools call.name call.arguments = .error e →
      toolTurn tools request invocations (pre ++ call :: post) =
        .error (.Provider ("tool '" ++ call.name ++ "' execution failed: " ++
          e.toDisplay))) ∧
    (∀ (send : ChatRequest → Except ForgeError ChatResponse)
        (request : ChatRequest) (N : Nat) (response : ChatResponse),
      validate_request request = .ok () →
      send request = .ok response → response.tool_calls.isEmpty = false →
      0 < N →
      run_tool_loop send tools request { max_iterations := N } =
        (match toolTurn tools
            { request with messages := request.messages ++
                [{ role := Role.Assistant, content := response.output_text }] }
            [] response.tool_calls with
         | .error e => .error e
         | .ok (request', invocations') =>
             loopGo send tools N (N - 1) request' invocations')) := by
  refine ⟨?_, ?_, ?_⟩
  · intro calls outputs request invocations hall
    induction hall generalizing request invocations with
    | nil => simp [toolTurn]
    | cons hhead htail ih =>
        rename_i c out cs outs
        simp only [toolTurn, hhead]
        rw [ih]
        simp
  · intro pre call post outputs request invocations e hall herr
    induction hall generalizing request invocations with
    | nil =>
        simp only [List.nil_append, toolTurn, herr]
    | cons hhead htail ih =>
        rename_i c out cs outs
        simp only [List.cons_append, toolTurn, hhead]
        exact ih _ _
  · intro send request N response hvld hsend hcalls hN
    obtain ⟨M, rfl⟩ : ∃ M, N = M + 1 := ⟨N - 1, by omega⟩
    have hNn : ¬ M + 1 = 0 := by omega
    have hrun : run_tool_loop send tools request { max_iterations := M + 1 } =
        loopGo send tools (M + 1) (M + 1) request [] := by
      simp [run_tool_loop, hvld, hNn]
    rw [hrun]
    simp only [loopGo, hsend, hcalls]
    simp only [Nat.add_sub_cancel]
    cases htt : toolTurn tools
        { request with messages := request.messages ++
            [{ role := Role.Assistant, content := response.output_text }] }
        [] response.tool_calls with
    | error e => simp
    | ok pair => rcases pair with ⟨r', i'⟩; simp

/-- C8 witness: a successful one-call turn appends the serialized tool reply
and records the invocation; a failing executor aborts with the formatted
Provider message. -/
theorem C8_tool_turn_mechanics_witness :
    toolTurn echoExecutor okRequest []
      [{ id := "call-1", name := "time.now",
         arguments := Json.obj [("timezone", Json.str "UTC")] }] = .ok
      ({ okRequest with messages := okRequest.messages ++
          [{ role := Role.Tool,
             content := (toolReplyJson "call-1" "time.now"
               (Json.obj [("timezone", Json.str "UTC")])).render }] },
       [{ call_id := "call-1", name := "time.now",
          input := Json.obj [("timezone", Json.str "UTC")],
          output := Json.obj [("timezone", Json.str "UTC")] }]) ∧
    toolTurn (fun _ _ => .error (.Execution "boom")) okRequest []
      [{ id := "call-1", name := "time.now", arguments := Json.null }] =
      .error (.Provider
        "tool 'time.now' execution failed: tool execution failed: boom") := by
  constructor
  · have h := (C8_tool_turn_mechanics echoExecutor).1
      [{ id := "call-1", name := "time.now",
         arguments := Json.obj [("timezone", Json.str "UTC")] }]
      [Json.obj [("timezone", Json.str "UTC")]] okRequest []
      (List.Forall₂.cons rfl List.Forall₂.nil)
    exact h
  · have h := (C8_tool_turn_mechanics (fun _ _ => .error (.Execution "boom"))).2.1
      [] { id := "call-1", name := "time.now", arguments := Json.null } []
      [] okRequest [] (.Execution "boom") List.Forall₂.nil rfl
    exact h
